import Mathlib

/-!
Shallow embedding of the `ptr_cell` crate (src/src/lib.rs): a lock-free
single-slot cell built on an atomic pointer, a heap leak/reclaim allocator,
a memory-ordering policy (`Semantics`), and the `map_owner` compare-and-swap
retry loop.

Pointers are modelled as natural numbers with `0` as the null pointer.  The
ambient heap is an explicit allocation state: a monotone counter of fresh
addresses together with an association list from live addresses to values
(fresh addresses are `next + 1`, so an allocation is never null, matching
the fact that a Rust `Box` allocation is never at the null address).  Memory
orderings have no semantic effect in the sequential model; operations still
take the `Semantics` parameter, mirroring the source, and the `map_owner`
embedding additionally records which orderings each atomic step would use.
-/

/-- Raw machine addresses; `0` is the null pointer (`core::ptr::null_mut`). -/
abbrev Ptr := Nat

/-- Memory orderings of the host atomics, `core::sync::atomic::Ordering`. -/
inductive MemOrd where
  | Relaxed
  | Release
  | Acquire
  | AcqRel
  | SeqCst
deriving DecidableEq, Repr

/-- Ordering policy of the cell: the `Semantics` enum from the source. -/
inductive Semantics where
  | Relaxed
  | Coupled
  | Ordered
deriving DecidableEq, Repr

/-- Memory ordering for read-write operations with these semantics
(`Semantics::read_write`, generated by the `operation!` macro with
`Ordering::AcqRel` for `Coupled`). -/
def Semantics.read_write : Semantics → MemOrd
  | .Relaxed => .Relaxed
  | .Coupled => .AcqRel
  | .Ordered => .SeqCst

/-- Memory ordering for write operations with these semantics
(`Semantics::write`, generated with `Ordering::Release` for `Coupled`). -/
def Semantics.write : Semantics → MemOrd
  | .Relaxed => .Relaxed
  | .Coupled => .Release
  | .Ordered => .SeqCst

/-- Memory ordering for read operations with these semantics
(`Semantics::read`, generated with `Ordering::Acquire` for `Coupled`). -/
def Semantics.read : Semantics → MemOrd
  | .Relaxed => .Relaxed
  | .Coupled => .Acquire
  | .Ordered => .SeqCst

/-- Default variant of `Semantics` (`impl Default for Semantics`). -/
def Semantics.default : Semantics := Semantics.Coupled

/-- Looks up the value stored at address `p` in an allocation list
(dereferencing a live pointer). -/
def lookupKey {T : Type} : Ptr → List (Nat × T) → Option T
  | _, [] => none
  | p, (k, v) :: rest => if k = p then some v else lookupKey p rest

/-- Removes the allocation at address `p` from an allocation list
(deallocation by `Box::from_raw` followed by drop). -/
def removeKey {T : Type} : Ptr → List (Nat × T) → List (Nat × T)
  | _, [] => []
  | p, (k, v) :: rest => if k = p then rest else (k, v) :: removeKey p rest

/-- State of the ambient heap: a counter from which fresh addresses are
drawn (a fresh address is `next + 1`, hence never null) and the list of
live allocations. -/
structure AllocState (T : Type) where
  next : Nat
  mem : List (Nat × T)
deriving DecidableEq, Repr

/-- The heap of a program that has allocated nothing yet. -/
def AllocState.empty {T : Type} : AllocState T := ⟨0, []⟩

/-- Thread-safe cell based on atomic pointers (`PtrCell<T>`): its state is
exactly one pointer-sized value, the current content of the internal
`AtomicPtr`. -/
structure PtrCell where
  value : Ptr
deriving DecidableEq, Repr

/-- Returns `ptr` if non-null (the module-level `non_null` helper:
`match ptr.is_null() { true => None, false => Some(ptr) }`). -/
def non_null (ptr : Ptr) : Option Ptr :=
  if ptr = 0 then none else some ptr

/-- Leaks `slot` to the heap and returns a raw pointer to it together with
the new heap (`PtrCell::heap_leak`): `Some(value)` is boxed at a fresh
address, `None` is represented by the null pointer. -/
def PtrCell.heap_leak {T : Type} (slot : Option T) (h : AllocState T) :
    Ptr × AllocState T :=
  match slot with
  | some value => (h.next + 1, ⟨h.next + 1, (h.next + 1, value) :: h.mem⟩)
  | none => (0, h)

/-- Reclaims ownership of the memory pointed to by `ptr`
(`PtrCell::heap_reclaim`): `non_null(ptr).map(|ptr| *Box::from_raw(ptr))`.
A null pointer yields `None`; otherwise the allocation is read and freed. -/
def PtrCell.heap_reclaim {T : Type} (ptr : Ptr) (h : AllocState T) :
    Option T × AllocState T :=
  match non_null ptr with
  | none => (none, h)
  | some p => (lookupKey p h.mem, ⟨h.next, removeKey p h.mem⟩)

/-- Constructs a cell that owns the memory `ptr` points to
(`PtrCell::from_ptr`). -/
def PtrCell.from_ptr (ptr : Ptr) : PtrCell := ⟨ptr⟩

/-- Constructs a cell with `slot` inside (`PtrCell::new`): leaks the slot
and wraps the resulting pointer. -/
def PtrCell.new {T : Type} (slot : Option T) (h : AllocState T) :
    PtrCell × AllocState T :=
  let (ptr, h1) := PtrCell.heap_leak slot h
  (PtrCell.from_ptr ptr, h1)

/-- Constructs an empty cell (`impl Default for PtrCell`: `Self::new(None)`). -/
def PtrCell.mkDefault {T : Type} (h : AllocState T) : PtrCell × AllocState T :=
  PtrCell.new (T := T) none h

/-- Returns the pointer to the cell's value, replacing it with `ptr`
(`PtrCell::replace_ptr`): an atomic swap using `order.read_write()`. -/
def PtrCell.replace_ptr (c : PtrCell) (ptr : Ptr) (order : Semantics) :
    Ptr × PtrCell :=
  (c.value, ⟨ptr⟩)

/-- Returns the cell's value, replacing it with `slot` (`PtrCell::replace`):
leak the new slot, atomically swap the pointers, reclaim the old pointer. -/
def PtrCell.replace {T : Type} (c : PtrCell) (slot : Option T)
    (order : Semantics) (h : AllocState T) :
    Option T × PtrCell × AllocState T :=
  let (new_leak, h1) := PtrCell.heap_leak slot h
  let (old_leak, c1) := PtrCell.replace_ptr c new_leak order
  let (res, h2) := PtrCell.heap_reclaim old_leak h1
  (res, c1, h2)

/-- Returns the cell's value, replacing it with `None` (`PtrCell::take`, an
alias for `self.replace(None, order)`). -/
def PtrCell.take {T : Type} (c : PtrCell) (order : Semantics)
    (h : AllocState T) : Option T × PtrCell × AllocState T :=
  PtrCell.replace c none order h

/-- Returns a pointer to the cell's value (`PtrCell::get_ptr`): an atomic
load using `order.read()`. -/
def PtrCell.get_ptr (c : PtrCell) (order : Semantics) : Ptr :=
  c.value

/-- Determines whether this cell is empty (`PtrCell::is_empty`):
`self.get_ptr(order).is_null()`. -/
def PtrCell.is_empty (c : PtrCell) (order : Semantics) : Bool :=
  PtrCell.get_ptr c order == 0

/-- Mutably borrows the cell's value (`PtrCell::get_mut`):
`non_null(leak).map(|ptr| &mut *ptr)`; the dereference is modelled as a
heap lookup, and the cell and heap are untouched (the source only reads
through `&mut self`). -/
def PtrCell.get_mut {T : Type} (c : PtrCell) (h : AllocState T) : Option T :=
  (non_null c.value).bind fun ptr => lookupKey ptr h.mem

/-- Modelled from the spec: `swap_with` is absent from src/src/lib.rs (a
changelog comment there only plans a future `swap` for release 2.2.0).
Spec section 4.3 describes it as exchanging the contents of two cells,
"implemented as one atomic exchange on `self` followed by a non-atomic
store into the exclusively-held `other`".  The exchange on `self` installs
`other`'s pointer and dislodges `self`'s old pointer, which is then stored
non-atomically into `other`. -/
def PtrCell.swap_with (c : PtrCell) (other : PtrCell) (order : Semantics) :
    PtrCell × PtrCell :=
  let (old, c1) := PtrCell.replace_ptr c other.value order
  (c1, ⟨old⟩)

/-- Unit of a linked list, as in the `map_owner` usage example: a value
together with an internal cell (`next: PtrCell<Self>`), which is this
node's `AsMut<PtrCell<Self>>` target. -/
structure Node (V : Type) where
  value : V
  next : Ptr
deriving DecidableEq, Repr

/-- Overwrites the internal cell pointer of the node allocated at `p`
(the `*value_ptr = modified` store of `map_owner`, which writes through
the owner's `AsMut` cell). -/
def setNext {V : Type} (h : AllocState (Node V)) (p : Ptr) (next : Ptr) :
    AllocState (Node V) :=
  ⟨h.next, h.mem.map fun kv => if kv.1 = p then (kv.1, ⟨kv.2.value, next⟩) else kv⟩

/-- Single-threaded semantics of `PtrCell::map_owner`: load the current
pointer, invoke the builder once on a cell wrapping it, leak the built
owner, then run the compare-and-swap loop.  With no interference the slot
still holds the loaded pointer at every attempt, so the first attempt
either succeeds outright, or fails once (when the builder stored a
different pointer in the owner's internal cell), overwrites that internal
pointer with the observed one and succeeds on the retry. -/
def PtrCell.map_owner_st {V : Type} (c : PtrCell) (new : Ptr → Node V)
    (order : Semantics) (h : AllocState (Node V)) :
    PtrCell × AllocState (Node V) :=
  let value_ptr := PtrCell.get_ptr c order
  let node := new value_ptr
  let (owner_ptr, h1) := PtrCell.heap_leak (some node) h
  if node.next = c.value then
    (⟨owner_ptr⟩, h1)
  else
    (⟨owner_ptr⟩, setNext h1 owner_ptr c.value)

/-- Drains a linked-list cell: repeatedly `take` the head node, yield its
value, and continue from the node's internal `next` cell.  `fuel` bounds
the number of pops. -/
def PtrCell.drain {V : Type} (fuel : Nat) (order : Semantics) (c : PtrCell)
    (h : AllocState (Node V)) : List V :=
  match fuel with
  | 0 => []
  | fuel + 1 =>
    match PtrCell.take c order h with
    | (none, _, _) => []
    | (some node, _, h1) =>
      node.value :: PtrCell.drain fuel order (PtrCell.from_ptr node.next) h1

/-- Observable events of one `map_owner` call: the single builder
invocation, each weak compare-and-swap attempt (with its expected pointer,
the pointer actually in the slot, the success and failure orderings passed
to `compare_exchange_weak`, and whether it succeeded), and each overwrite
of the candidate owner's internal pointer on the failure path. -/
inductive MapEvent where
  | builderCall (arg : Ptr)
  | casAttempt (expected actual : Ptr) (succOrd failOrd : MemOrd) (ok : Bool)
  | overwriteInternal (val : Ptr)
deriving DecidableEq, Repr

/-- Event trace of the commit loop of `PtrCell::map_owner` under
interference.  `expected` is the owner's current internal pointer (the
value the CAS expects); `sched` gives, for each of the first attempts, the
pointer actually in the slot and whether the weak CAS fails spuriously;
after `sched` is exhausted the slot stays at `stable` and the weak CAS no
longer fails spuriously.  A successful attempt breaks the loop; a failed
attempt stores the observed pointer into the owner's internal cell and
retries with it as the new expected value, exactly as in the source
(`Err(modified) => *value_ptr = modified`). -/
def map_owner_loop (order : Semantics) (expected : Ptr)
    (sched : List (Ptr × Bool)) (stable : Ptr) : List MapEvent :=
  match sched with
  | [] =>
    if expected = stable then
      [MapEvent.casAttempt expected stable order.read_write order.read true]
    else
      [MapEvent.casAttempt expected stable order.read_write order.read false,
       MapEvent.overwriteInternal stable,
       MapEvent.casAttempt stable stable order.read_write order.read true]
  | (actual, spurious) :: rest =>
    if expected = actual ∧ spurious = false then
      [MapEvent.casAttempt expected actual order.read_write order.read true]
    else
      MapEvent.casAttempt expected actual order.read_write order.read false ::
      MapEvent.overwriteInternal actual ::
      map_owner_loop order actual rest stable

/-- Event trace of a whole `PtrCell::map_owner` call: the slot is loaded
(yielding `p0`), the builder is invoked once on a cell wrapping `p0`, the
built owner is leaked, and the commit loop runs starting from the internal
pointer the builder chose (`owner.as_mut().value`). -/
def map_owner_trace {V : Type} (order : Semantics) (new : Ptr → Node V)
    (p0 : Ptr) (sched : List (Ptr × Bool)) (stable : Ptr) : List MapEvent :=
  MapEvent.builderCall p0 :: map_owner_loop order (new p0).next sched stable

/-- Counts the builder invocations recorded in a trace. -/
def builderCallCount : List MapEvent → Nat
  | [] => 0
  | MapEvent.builderCall _ :: rest => builderCallCount rest + 1
  | MapEvent.casAttempt _ _ _ _ _ :: rest => builderCallCount rest
  | MapEvent.overwriteInternal _ :: rest => builderCallCount rest

/-- The expected pointer of the first CAS attempt of a trace, if the trace
starts with one. -/
def firstExpected : List MapEvent → Option Ptr
  | MapEvent.casAttempt e _ _ _ _ :: _ => some e
  | _ => none

/-- Shape of a well-formed commit loop whose every CAS attempt uses the
success ordering `so` and failure ordering `fo`: the trace is a possibly
empty run of failed attempts, each immediately followed by an overwrite of
the owner's internal pointer with the pointer that attempt actually
observed and by a retry expecting exactly that pointer, ending in one
successful attempt. -/
inductive CasLoopShape (so fo : MemOrd) : List MapEvent → Prop where
  | success (e a : Ptr) :
      CasLoopShape so fo [MapEvent.casAttempt e a so fo true]
  | retry (e a : Ptr) (rest : List MapEvent)
      (hrest : CasLoopShape so fo rest)
      (hnext : firstExpected rest = some a) :
      CasLoopShape so fo
        (MapEvent.casAttempt e a so fo false ::
         MapEvent.overwriteInternal a :: rest)

/-- The single-thread replace chain of spec section 8, as a proposition
about the embedding: starting from an empty cell, `replace (some A)`
returns `none`, then `replace (some B)` returns `some A`, then
`replace none` returns `some B`, and the final cell is empty. -/
def replaceChainHolds (T : Type) (A B : T) (order : Semantics) : Prop :=
  let s0 := PtrCell.mkDefault (T := T) AllocState.empty
  let r1 := PtrCell.replace s0.1 (some A) order s0.2
  let r2 := PtrCell.replace r1.2.1 (some B) order r1.2.2
  let r3 := PtrCell.replace r2.2.1 none order r2.2.2
  r1.1 = none ∧ r2.1 = some A ∧ r3.1 = some B ∧
    PtrCell.is_empty r3.2.1 order = true

/-- C3: for every value `v` and heap, `heap_reclaim (heap_leak (some v))`
returns `some v`, `heap_reclaim (heap_leak none)` returns `none`, and
absence leaks to the null address: reclaim is the strict inverse of leak. -/
theorem heap_reclaim_heap_leak_round_trip (T : Type) (v : T) (h : AllocState T) :
    (PtrCell.heap_reclaim (PtrCell.heap_leak (some v) h).1
      (PtrCell.heap_leak (some v) h).2).1 = some v ∧
    (PtrCell.heap_reclaim (PtrCell.heap_leak (none : Option T) h).1
      (PtrCell.heap_leak (none : Option T) h).2).1 = none ∧
    (PtrCell.heap_leak (none : Option T) h).1 = 0 := by
  refine ⟨?_, rfl, rfl⟩
  simp [PtrCell.heap_leak, PtrCell.heap_reclaim, non_null, lookupKey]

/-- C4: for every cell state, ordering policy, and heap, `take` returns the
same result and leaves the same state as `replace none`. -/
theorem take_eq_replace_none (T : Type) (c : PtrCell) (order : Semantics)
    (h : AllocState T) :
    PtrCell.take c order h = PtrCell.replace c none order h := rfl

/-- C5: each `Semantics` variant deterministically resolves its read, write,
and read-write orderings — `Relaxed` maps all three to relaxed, `Coupled`
maps read to acquire, write to release, and read-write to acquire-release,
`Ordered` maps all three to sequentially consistent — and the default
policy is `Coupled`. -/
theorem semantics_resolution_table :
    Semantics.read Semantics.Relaxed = MemOrd.Relaxed ∧
    Semantics.write Semantics.Relaxed = MemOrd.Relaxed ∧
    Semantics.read_write Semantics.Relaxed = MemOrd.Relaxed ∧
    Semantics.read Semantics.Coupled = MemOrd.Acquire ∧
    Semantics.write Semantics.Coupled = MemOrd.Release ∧
    Semantics.read_write Semantics.Coupled = MemOrd.AcqRel ∧
    Semantics.read Semantics.Ordered = MemOrd.SeqCst ∧
    Semantics.write Semantics.Ordered = MemOrd.SeqCst ∧
    Semantics.read_write Semantics.Ordered = MemOrd.SeqCst ∧
    Semantics.default = Semantics.Coupled := by
  decide

/-- C7: for every cell state and ordering policy, `is_empty` returns `true`
exactly when the pointer `get_ptr` observes is null: presence is encoded
solely by non-nullity of the address. -/
theorem is_empty_iff_null (c : PtrCell) (order : Semantics) :
    PtrCell.is_empty c order = true ↔ PtrCell.get_ptr c order = 0 := by
  simp [PtrCell.is_empty]

/-- C10: for every value `v` and heap, `heap_leak (some v)` returns a
non-null address, so the null address uniquely encodes absence: the fresh
cell is not empty under any policy, `heap_reclaim` recovers `some v`, and
`get_mut` sees `some v`. -/
theorem heap_leak_some_non_null (T : Type) (v : T) (h : AllocState T)
    (order : Semantics) :
    (PtrCell.heap_leak (some v) h).1 ≠ 0 ∧
    PtrCell.is_empty (PtrCell.from_ptr (PtrCell.heap_leak (some v) h).1)
      order = false ∧
    (PtrCell.heap_reclaim (PtrCell.heap_leak (some v) h).1
      (PtrCell.heap_leak (some v) h).2).1 = some v ∧
    PtrCell.get_mut (PtrCell.from_ptr (PtrCell.heap_leak (some v) h).1)
      (PtrCell.heap_leak (some v) h).2 = some v := by
  refine ⟨Nat.succ_ne_zero h.next, rfl, ?_, ?_⟩
  · simp [PtrCell.heap_leak, PtrCell.heap_reclaim, non_null, lookupKey]
  · simp [PtrCell.heap_leak, PtrCell.get_mut, PtrCell.from_ptr, non_null,
      lookupKey]

/-- C2: for every pair of distinct values `A` and `B` and every ordering
policy, on a freshly constructed empty cell the chain
`replace (some A) = none`, `replace (some B) = some A`,
`replace none = some B` holds and the final cell is empty. -/
theorem replace_chain (T : Type) (A B : T) (hAB : A ≠ B) (order : Semantics) :
    replaceChainHolds T A B order :=
  ⟨rfl, rfl, rfl, rfl⟩

/-- Witness for C2 at `A = 1`, `B = 2` over `Nat` with the default policy. -/
theorem replace_chain_witness :
    (1 : Nat) ≠ 2 ∧ replaceChainHolds Nat 1 2 Semantics.Coupled :=
  ⟨by decide, replace_chain Nat 1 2 (by decide) Semantics.Coupled⟩

/-- C6: for every two cells holding values `va` and `vb` in a shared heap
and every ordering policy, `swap_with` exchanges the contents: afterwards
the first cell holds `vb` and the second holds `va`. -/
theorem swap_with_exchanges (T : Type) (va vb : T) (a b : PtrCell)
    (h : AllocState T) (order : Semantics)
    (ha : lookupKey a.value h.mem = some va)
    (hb : lookupKey b.value h.mem = some vb) :
    lookupKey (PtrCell.swap_with a b order).1.value h.mem = some vb ∧
    lookupKey (PtrCell.swap_with a b order).2.value h.mem = some va :=
  ⟨hb, ha⟩

/-- Witness for C6: cell A holds 1, cell B holds 2; after the swap, A holds
2 and B holds 1. -/
theorem swap_with_exchanges_witness :
    lookupKey
      (PtrCell.swap_with (PtrCell.from_ptr 1) (PtrCell.from_ptr 2)
        Semantics.Coupled).1.value [(1, (1 : Nat)), (2, 2)] = some 2 ∧
    lookupKey
      (PtrCell.swap_with (PtrCell.from_ptr 1) (PtrCell.from_ptr 2)
        Semantics.Coupled).2.value [(1, (1 : Nat)), (2, 2)] = some 1 :=
  swap_with_exchanges Nat 1 2 (PtrCell.from_ptr 1) (PtrCell.from_ptr 2)
    ⟨2, [(1, 1), (2, 2)]⟩ Semantics.Coupled (by decide) (by decide)

/-- C9: for every cell whose non-null pointer is a live allocation,
`get_mut` returns the contained value when the cell is non-empty and
`none` when the cell is empty; being a pure function of the cell and heap,
it changes neither. -/
theorem get_mut_spec (T : Type) (c : PtrCell) (h : AllocState T)
    (hwf : c.value ≠ 0 → (lookupKey c.value h.mem).isSome = true) :
    (c.value = 0 → PtrCell.get_mut c h = none) ∧
    (c.value ≠ 0 → ∃ v, PtrCell.get_mut c h = some v ∧
      lookupKey c.value h.mem = some v) := by
  constructor
  · intro h0
    simp [PtrCell.get_mut, non_null, h0]
  · intro h0
    obtain ⟨v, hv⟩ := Option.isSome_iff_exists.mp (hwf h0)
    exact ⟨v, by simp [PtrCell.get_mut, non_null, h0, hv], hv⟩

/-- Witness for C9: on a heap whose address 1 holds 42, `get_mut` of a cell
pointing at 1 returns `some 42`, and `get_mut` of a null cell returns
`none`. -/
theorem get_mut_spec_witness :
    PtrCell.get_mut (PtrCell.from_ptr 1)
      (⟨1, [(1, (42 : Nat))]⟩ : AllocState Nat) = some 42 ∧
    PtrCell.get_mut (PtrCell.from_ptr 0)
      (⟨1, [(1, (42 : Nat))]⟩ : AllocState Nat) = none := by
  constructor
  · obtain ⟨v, hv, hl⟩ :=
      (get_mut_spec Nat (PtrCell.from_ptr 1) ⟨1, [(1, 42)]⟩ (by decide)).2
        (by decide)
    have h42 : (42 : Nat) = v := Option.some.inj hl
    rw [hv, ← h42]
  · exact (get_mut_spec Nat (PtrCell.from_ptr 0) ⟨1, [(1, 42)]⟩
      (by decide)).1 rfl

/-- The commit loop always opens with a CAS attempt expecting the owner's
current internal pointer. -/
theorem firstExpected_map_owner_loop (order : Semantics) (expected : Ptr)
    (sched : List (Ptr × Bool)) (stable : Ptr) :
    firstExpected (map_owner_loop order expected sched stable) =
      some expected := by
  cases sched with
  | nil =>
    by_cases hes : expected = stable <;>
      simp [map_owner_loop, hes, firstExpected]
  | cons head rest =>
    obtain ⟨actual, spurious⟩ := head
    by_cases hc : expected = actual ∧ spurious = false <;>
      simp [map_owner_loop, hc, firstExpected]

/-- For every interference schedule the commit loop of `map_owner` has the
well-formed shape: failed attempts each overwrite the owner's internal
pointer with the observed address and retry expecting it, every attempt
uses the policy's read-write ordering on success and read ordering on
failure, and the loop ends in a successful attempt. -/
theorem casLoopShape_map_owner_loop (order : Semantics) (stable : Ptr) :
    ∀ (sched : List (Ptr × Bool)) (expected : Ptr),
      CasLoopShape order.read_write order.read
        (map_owner_loop order expected sched stable)
  | [], expected => by
    by_cases hes : expected = stable
    · simp only [map_owner_loop, if_pos hes]
      exact CasLoopShape.success expected stable
    · simp only [map_owner_loop, if_neg hes]
      exact CasLoopShape.retry expected stable _
        (CasLoopShape.success stable stable) rfl
  | (actual, spurious) :: rest, expected => by
    by_cases hc : expected = actual ∧ spurious = false
    · simp only [map_owner_loop, if_pos hc]
      exact CasLoopShape.success expected actual
    · simp only [map_owner_loop, if_neg hc]
      exact CasLoopShape.retry expected actual _
        (casLoopShape_map_owner_loop order stable rest actual)
        (firstExpected_map_owner_loop order actual rest stable)

/-- A well-formed commit loop records no builder invocation. -/
theorem builderCallCount_of_casLoopShape (so fo : MemOrd)
    (evs : List MapEvent) (h : CasLoopShape so fo evs) :
    builderCallCount evs = 0 := by
  induction h with
  | success e a => rfl
  | retry e a rest hrest hnext ih =>
    simpa [builderCallCount] using ih

/-- C1: for every ordering policy, builder, loaded pointer, and
interference schedule, the `map_owner` trace starts with the single
builder invocation (exactly one in the whole trace, before the commit
loop), and the commit loop is well formed: each CAS failure overwrites the
candidate owner's internal pointer with the address actually observed and
retries expecting it, never re-invoking the builder, and every CAS uses
the policy's read-write ordering on success and its read ordering on
failure. -/
theorem map_owner_trace_spec (V : Type) (order : Semantics)
    (new : Ptr → Node V) (p0 : Ptr) (sched : List (Ptr × Bool))
    (stable : Ptr) :
    (map_owner_trace order new p0 sched stable).head? =
      some (MapEvent.builderCall p0) ∧
    builderCallCount (map_owner_trace order new p0 sched stable) = 1 ∧
    CasLoopShape order.read_write order.read
      (map_owner_trace order new p0 sched stable).tail := by
  refine ⟨rfl, ?_, ?_⟩
  · have hloop := builderCallCount_of_casLoopShape order.read_write order.read
      (map_owner_loop order (new p0).next sched stable)
      (casLoopShape_map_owner_loop order stable sched (new p0).next)
    simp [map_owner_trace, builderCallCount, hloop]
  · exact casLoopShape_map_owner_loop order stable sched (new p0).next

/-- C8: pushing the words "Hello" then "World" onto an empty cell with
`map_owner` (each new owner wrapping the previous head as its internal
cell content), then draining by repeatedly taking the head and following
its internal cell, yields "World" then "Hello" — last in, first out. -/
theorem map_owner_push_pop_lifo (order : Semantics) :
    let s0 := PtrCell.mkDefault (T := Node String) AllocState.empty
    let s1 := PtrCell.map_owner_st s0.1
      (fun next => ⟨ "Hello", next⟩) order s0.2
    let s2 := PtrCell.map_owner_st s1.1
      (fun next => ⟨ "World", next⟩) order s1.2
    PtrCell.drain 3 order s2.1 s2.2 = [ "World", "Hello"] := by
  exact rfl
